import Mathlib

/-!
Shallow embedding of `build.py` (Ballot-Events repository).

The program is a one-shot batch job: read a workbook, normalize rows into
event records, geocode each distinct location (with a persistent cache and
a rate-limit sleep), and emit one JSON document.

Modelling conventions:
* Python strings are `List Char` (`PyStr`); `str.strip()` is `pyStrip`,
  `str.lower()` is `pyLower`.
* A spreadsheet cell (`Cell`) is `none` (Python `None` / pandas `NaN`),
  a string, a native `datetime.time`, a native `date`, or a number.
* `pd.to_datetime(x, errors="coerce")` is an oracle parameter
  `pd : Cell → PdParse` with three outcomes: a parsed datetime, `NaT`
  (coercion failure), or a raised exception.
* The Nominatim HTTP lookup is an oracle `GeoOracle`; its three outcomes
  (`found`, `empty`, `error`) model a hit, an empty result array, and any
  transport error / non-success status / malformed payload (all of which
  the code collapses to `None` via `except Exception`).
* Coordinates are opaque tokens modelled as `Int`; the program never
  computes with them, it only stores and copies them.
* Network calls and `time.sleep(1.1)` are recorded in an event trace
  (`Ev.call q` / `Ev.sleep`) so rate-limit claims become trace properties.
* A JSON cache entry is a `CacheEntry` whose fields are `Option`-wrapped to
  distinguish “key absent from the JSON object” (`none`) from “key present
  with null” (`some none`) and “key present with a value” (`some (some v)`).
  A cache value that is not an object with the relevant keys (for example a
  bare two-element array) is modelled as an entry with both fields absent,
  since Python's `"lat" in cache[key]` membership test fails on it.
-/

namespace BallotEvents

abbrev PyStr := List Char

/-- Python `str.strip()`: drop whitespace from both ends. -/
def pyStrip (s : PyStr) : PyStr :=
  ((s.dropWhile Char.isWhitespace).reverse.dropWhile Char.isWhitespace).reverse

/-- Python `str.lower()` (ASCII case folding, as used by the program). -/
def pyLower (s : PyStr) : PyStr := s.map Char.toLower

/-- Left-pad a decimal rendering with zeros to width `w`
(Python `f"{n:0wd}"`). -/
def padNum (w n : Nat) : PyStr :=
  let s := (toString n).toList
  List.replicate (w - s.length) '0' ++ s

/-- Python `f"{h:02d}:{m:02d}"`. -/
def formatHM (h m : Nat) : PyStr := padNum 2 h ++ ':' :: padNum 2 m

/-- Python `date.isoformat()`: `YYYY-MM-DD`. -/
def isoDate (y m d : Nat) : PyStr :=
  padNum 4 y ++ '-' :: (padNum 2 m ++ '-' :: padNum 2 d)

/-- Python `str(datetime.time(h, m))`: `HH:MM:SS` with zero seconds. -/
def timeStr (h m : Nat) : PyStr :=
  padNum 2 h ++ ':' :: (padNum 2 m ++ ':' :: '0' :: '0' :: [])

/-- A raw spreadsheet cell as handed over by pandas. -/
inductive Cell where
  | none
  | str (s : PyStr)
  | time (hour minute : Nat)
  | date (year month day : Nat)
  | num (n : Int)
  deriving DecidableEq, Repr

/-- Python `str(x)` on a cell value (`str(nan)` is `"nan"`). -/
def rawStr : Cell → PyStr
  | Cell.none => 'n' :: 'a' :: 'n' :: []
  | Cell.str s => s
  | Cell.time h m => timeStr h m
  | Cell.date y m d => isoDate y m d
  | Cell.num n => (toString n).toList

/-- Embedding of `_safe_str` (build.py:29-32): `""` for `None`/`NaN`,
otherwise stringify and strip. -/
def safeStr : Cell → PyStr
  | Cell.none => []
  | x => pyStrip (rawStr x)

/-- A parsed datetime as produced by `pd.to_datetime`. -/
structure PyDateTime where
  year : Nat
  month : Nat
  day : Nat
  hour : Nat
  minute : Nat
  deriving DecidableEq, Repr

/-- Outcome of `pd.to_datetime(x, errors="coerce")`: a value, `NaT`, or a
raised exception. -/
inductive PdParse where
  | ok (dt : PyDateTime)
  | naT
  | exn
  deriving DecidableEq, Repr

/-- Embedding of `_parse_date` (build.py:34-46), parameterized by the
pandas parse oracle. -/
def parseDate (pd : Cell → PdParse) (x : Cell) : Option PyStr :=
  match x with
  | Cell.none => Option.none
  | Cell.date y m d => some (isoDate y m d)
  | _ =>
    match pd x with
    | PdParse.ok dt => some (isoDate dt.year dt.month dt.day)
    | PdParse.naT => Option.none
    | PdParse.exn => Option.none

/-- Embedding of `_parse_time` (build.py:48-63), parameterized by the
pandas parse oracle.  The first-five-characters fallback sits inside the
`except` handler, so it runs only when the parse raises, not when it
coerces to `NaT`. -/
def parseTime (pd : Cell → PdParse) (x : Cell) : Option PyStr :=
  match x with
  | Cell.none => Option.none
  | Cell.time h m => some (formatHM h m)
  | _ =>
    match pd x with
    | PdParse.ok dt => some (formatHM dt.hour dt.minute)
    | PdParse.naT => Option.none
    | PdParse.exn =>
      let s := safeStr x
      if 5 ≤ s.length ∧ s.get? 2 = some ':' then some (s.take 5) else Option.none

/-! Python `dict` with string keys, as an insertion-ordered association
list with distinct keys.  Assignment to an existing key keeps its position
and replaces the value, matching CPython semantics. -/

/-- First value stored under key `k` (Python `d[k]` / `d.get(k)`). -/
def dictFind {V : Type} : List (PyStr × V) → PyStr → Option V
  | [], _ => Option.none
  | (k', v) :: rest, k => if k' = k then some v else dictFind rest k

/-- Python `d[k] = v`: replace in place, or append a fresh binding. -/
def dictInsert {V : Type} : List (PyStr × V) → PyStr → V → List (PyStr × V)
  | [], k, v => [(k, v)]
  | (k', v') :: rest, k, v =>
    if k' = k then (k, v) :: rest else (k', v') :: dictInsert rest k v

/-- One worksheet: its name and its cell grid. -/
structure Sheet where
  name : PyStr
  rows : List (List Cell)
  deriving DecidableEq, Repr

abbrev Workbook := List Sheet

/-- Marker test of the header scan (build.py:135-139): the row, rendered by
`str(x).strip().lower()` per cell, must contain the substrings
`"event date"` and `"event location"` somewhere. -/
def isMarkerRow (row : List Cell) : Bool :=
  (row.any fun c => decide
      (('e':: 'v':: 'e':: 'n':: 't':: ' ':: 'd':: 'a':: 't':: 'e'::[]) <:+: pyLower (pyStrip (rawStr c)))) &&
  (row.any fun c => decide
      (('e':: 'v':: 'e':: 'n':: 't':: ' ':: 'l':: 'o':: 'c':: 'a':: 't':: 'i':: 'o':: 'n'::[]) <:+: pyLower (pyStrip (rawStr c))))

/-- Header discovery (build.py:134-143): first of the first ten rows that
matches `isMarkerRow`, defaulting to row 0. -/
def findHeaderRow (rows : List (List Cell)) : Nat :=
  match (List.range (min 10 rows.length)).find? (fun i => isMarkerRow (rows.getD i [])) with
  | some i => i
  | Option.none => 0

/-- Header names: `_safe_str` of the header row's cells (build.py:145). -/
def sheetHeader (s : Sheet) : List PyStr :=
  (s.rows.getD (findHeaderRow s.rows) []).map safeStr

/-- Rows below the header, before `dropna` (build.py:146). -/
def sheetBodyAll (s : Sheet) : List (List Cell) :=
  s.rows.drop (findHeaderRow s.rows + 1)

/-- Test used by `df.dropna(how="all")`: every cell of the row is missing. -/
def allNone (row : List Cell) : Bool :=
  row.all fun c => decide (c = Cell.none)

/-- Rows below the header after `dropna(how="all")` (build.py:148). -/
def sheetBody (s : Sheet) : List (List Cell) :=
  (sheetBodyAll s).filter fun r => !(allNone r)

/-- Normalized-name-to-original-name column map
(`cols = {c.strip().lower(): c for c in df.columns}`, build.py:151). -/
def sheetCols (s : Sheet) : List (PyStr × PyStr) :=
  (sheetHeader s).foldl (fun m c => dictInsert m (pyLower (pyStrip c)) c) []

/-- Exact pass of `pick` (build.py:153-155): first name whose lowering is a
key of `cols`. -/
def pickExact (cols : List (PyStr × PyStr)) : List PyStr → Option PyStr
  | [] => Option.none
  | n :: rest =>
    match dictFind cols (pyLower n) with
    | some c => some c
    | Option.none => pickExact cols rest

/-- Partial pass of `pick` (build.py:156-160): first column whose
normalized name contains some requested name as a substring. -/
def pickPartial (cols : List (PyStr × PyStr)) (names : List PyStr) : Option PyStr :=
  match cols.find? (fun p => names.any fun n => decide (pyLower n <:+: p.1)) with
  | some p => some p.2
  | Option.none => Option.none

/-- Embedding of `pick` (build.py:152-161). -/
def pick (cols : List (PyStr × PyStr)) (names : List PyStr) : Option PyStr :=
  match pickExact cols names with
  | some c => some c
  | Option.none => pickPartial cols names

/-- Cell of `row` in the column whose header is `c`
(`r.get(c)` after `df.columns = header`); missing columns and short rows
read as `None`. -/
def rowGet (header : List PyStr) (row : List Cell) (c : PyStr) : Cell :=
  match header.findIdx? (fun h => decide (h = c)) with
  | some i => row.getD i Cell.none
  | Option.none => Cell.none

/-- Cell under an optionally-resolved column. -/
def colGet (header : List PyStr) (row : List Cell) : Option PyStr → Cell
  | some c => rowGet header row c
  | Option.none => Cell.none

/-- Resolved column for each canonical field (build.py:163-168). -/
def colDate (s : Sheet) : Option PyStr := pick (sheetCols s) [('E':: 'v':: 'e':: 'n':: 't':: ' ':: 'd':: 'a':: 't':: 'e'::[])]

def colLoc (s : Sheet) : Option PyStr := pick (sheetCols s) [('E':: 'v':: 'e':: 'n':: 't':: ' ':: 'l':: 'o':: 'c':: 'a':: 't':: 'i':: 'o':: 'n'::[])]

def colTime (s : Sheet) : Option PyStr := pick (sheetCols s) [('S':: 't':: 'a':: 'r':: 't':: ' ':: 't':: 'i':: 'm':: 'e'::[])]

def colType (s : Sheet) : Option PyStr := pick (sheetCols s) [('E':: 'v':: 'e':: 'n':: 't':: ' ':: 't':: 'y':: 'p':: 'e'::[])]

def colNotes (s : Sheet) : Option PyStr := pick (sheetCols s) [('N':: 'o':: 't':: 'e':: 's'::[])]

def colLead (s : Sheet) : Option PyStr :=
  pick (sheetCols s)
    [('L':: 'e':: 'a':: 'd':: ' ':: 'r':: 'e':: 'p':: '/':: ' ':: 's':: 't':: 'a':: 'f':: 'f':: ' ':: 'm':: 'e':: 'm':: 'b':: 'e':: 'r'::[]),
     ('L':: 'e':: 'a':: 'd':: ' ':: 'r':: 'e':: 'p':: '/':: 's':: 't':: 'a':: 'f':: 'f':: ' ':: 'm':: 'e':: 'm':: 'b':: 'e':: 'r'::[]),
     ('L':: 'e':: 'a':: 'd'::[])]

/-- Normalized location of a body row
(`_safe_str(r.get(c_loc)) if c_loc else ""`, build.py:172). -/
def sheetLoc (s : Sheet) (row : List Cell) : PyStr :=
  match colLoc s with
  | some c => safeStr (rowGet (sheetHeader s) row c)
  | Option.none => []

/-- One canonical event record, before and after id assignment. -/
structure Event where
  region : PyStr
  date : Option PyStr
  start_time : Option PyStr
  location : PyStr
  event_type : PyStr
  notes : PyStr
  lead : PyStr
  id : PyStr
  deriving DecidableEq, Repr

/-- Record built for a body row that survives the location check
(build.py:175-183). -/
def mkEvent (pd : Cell → PdParse) (s : Sheet) (row : List Cell) : Event :=
  let header := sheetHeader s
  { region := pyStrip s.name
    date := match colDate s with
            | some c => parseDate pd (rowGet header row c)
            | Option.none => Option.none
    start_time := match colTime s with
                  | some c => parseTime pd (rowGet header row c)
                  | Option.none => Option.none
    location := sheetLoc s row
    event_type := safeStr (colGet header row (colType s))
    notes := safeStr (colGet header row (colNotes s))
    lead := safeStr (colGet header row (colLead s))
    id := [] }

/-- Row loop of one sheet (build.py:128-184): skip empty grids, drop
all-blank rows, then emit a record per row whose location is non-empty. -/
def sheetEvents (pd : Cell → PdParse) (s : Sheet) : List Event :=
  if s.rows.isEmpty then []
  else
    (sheetBody s).filterMap fun r =>
      if sheetLoc s r = [] then Option.none else some (mkEvent pd s r)

/-- Deterministic id pass (build.py:187-188), counting from `i`. -/
def assignIdsFrom (i : Nat) : List Event → List Event
  | [] => []
  | e :: rest =>
    { e with id := 'E' :: 'V' :: 'T' :: '-' :: padNum 4 i } :: assignIdsFrom (i + 1) rest

/-- Deterministic id pass (build.py:187-188): `EVT-0001`, … in order. -/
def assignIds (evs : List Event) : List Event := assignIdsFrom 1 evs

/-- Embedding of `read_events` (build.py:124-189). -/
def readEvents (pd : Cell → PdParse) (wb : Workbook) : List Event :=
  assignIds (wb.foldl (fun acc s => acc ++ sheetEvents pd s) [])

/-! Geocode cache and resolver (build.py:65-122, 191-228). -/

/-- Outcome of one Nominatim HTTP lookup: a first result, an empty result
array, or any raised error (transport failure, non-2xx status via
`raise_for_status`, malformed payload). -/
inductive GeoOutcome where
  | found (lat lon : Int) (display : PyStr)
  | empty
  | error
  deriving DecidableEq, Repr

abbrev GeoOracle := PyStr → GeoOutcome

/-- Observable external actions of the resolver, in order: an HTTP request
with its query string, or a `time.sleep(1.1)`. -/
inductive Ev where
  | call (q : PyStr)
  | sleep
  deriving DecidableEq, Repr

def Ev.isCall : Ev → Bool
  | Ev.call _ => true
  | Ev.sleep => false

/-- One JSON cache value.  Each field is `none` when the JSON object lacks
that key, `some none` when it holds `null`, `some (some v)` when it holds a
value. -/
structure CacheEntry where
  lat : Option (Option Int)
  lon : Option (Option Int)
  display_name : Option PyStr
  ts : Option PyStr
  deriving DecidableEq, Repr

abbrev Cache := List (PyStr × CacheEntry)

/-- Cache entry recording a failed resolution (build.py:115). -/
def nullEntry (ts : PyStr) : CacheEntry :=
  ⟨some Option.none, some Option.none, Option.none, some ts⟩

/-- Cache entry recording a successful resolution (build.py:119). -/
def foundEntry (la lo : Int) (display ts : PyStr) : CacheEntry :=
  ⟨some (some la), some (some lo), some display, some ts⟩

/-- The UK-biased query string (build.py:101). -/
def ukQuery (location : PyStr) : PyStr :=
  location ++ (',':: ' ':: 'U':: 'n':: 'i':: 't':: 'e':: 'd':: ' ':: 'K':: 'i':: 'n':: 'g':: 'd':: 'o':: 'm'::[])

/-- One guarded lookup attempt: `nominatim_geocode` wrapped in
`try/except`, so `empty` and `error` both come back as `None`
(build.py:102-112). -/
def geoAttempt (g : GeoOracle) (q : PyStr) : Option (Int × Int × PyStr) :=
  match g q with
  | GeoOutcome.found la lo d => some (la, lo, d)
  | GeoOutcome.empty => Option.none
  | GeoOutcome.error => Option.none

/-- The key a location is cached and grouped under:
`location.lower().strip()` (build.py:93, 204, 211). -/
def keyOf (location : PyStr) : PyStr := pyStrip (pyLower location)

/-- Resolution path of `ensure_geocode` past the cache check
(build.py:100-122): biased query, fallback raw query, negative caching, and
the post-success sleep. -/
def geoResolve (g : GeoOracle) (ts location key : PyStr) (cache : Cache) :
    (Option Int × Option Int) × Cache × List Ev :=
  match geoAttempt g (ukQuery location) with
  | some (la, lo, d) =>
    ((some la, some lo), dictInsert cache key (foundEntry la lo d ts),
      [Ev.call (ukQuery location), Ev.sleep])
  | Option.none =>
    match geoAttempt g location with
    | some (la, lo, d) =>
      ((some la, some lo), dictInsert cache key (foundEntry la lo d ts),
        [Ev.call (ukQuery location), Ev.call location, Ev.sleep])
    | Option.none =>
      ((Option.none, Option.none), dictInsert cache key (nullEntry ts),
        [Ev.call (ukQuery location), Ev.call location])

/-- Embedding of `ensure_geocode` (build.py:92-122).  The cache hit demands
the key to be present and its entry to carry both a `lat` and a `lon`
field; each call returns the coordinate pair, the updated cache, and the
trace of external actions. -/
def ensureGeocode (g : GeoOracle) (ts location : PyStr) (cache : Cache) :
    (Option Int × Option Int) × Cache × List Ev :=
  let key := keyOf location
  if key = [] then ((Option.none, Option.none), cache, [])
  else
    match dictFind cache key with
    | some e =>
      match e.lat, e.lon with
      | some la, some lo => ((la, lo), cache, [])
      | _, _ => geoResolve g ts location key cache
    | Option.none => geoResolve g ts location key cache

/-! The main pipeline (build.py:191-229). -/

/-- One output record: the base event dict plus the keys the geocode loop
writes into it (`lat`, `lon`, `location_key`); each is `none` until
assigned, `some v` once set (with `v` itself `none` for JSON null). -/
structure OutEvent where
  base : Event
  lat : Option (Option Int)
  lon : Option (Option Int)
  location_key : Option PyStr
  deriving DecidableEq, Repr

/-- Write-back loop body (build.py:210-214): store the resolved pair and
the key onto every event whose normalized location equals `k`. -/
def assignCoords (k : PyStr) (la lo : Option Int) : List OutEvent → List OutEvent :=
  List.map fun e =>
    if keyOf e.base.location = k then
      { e with lat := some la, lon := some lo, location_key := some k }
    else e

/-- Deduplication dict (build.py:202-205): key to last-seen raw location. -/
def uniqueMap (evs : List Event) : List (PyStr × PyStr) :=
  evs.foldl (fun m e => dictInsert m (keyOf e.location) e.location) []

/-- Geocoding loop over the distinct keys (build.py:207-214), threading the
cache and concatenating the traces. -/
def geocodeLoop (g : GeoOracle) (ts : PyStr) :
    List (PyStr × PyStr) → List OutEvent → Cache → List OutEvent × Cache × List Ev
  | [], evs, cache => (evs, cache, [])
  | (k, loc) :: rest, evs, cache =>
    let r := ensureGeocode g ts loc cache
    let res := geocodeLoop g ts rest (assignCoords k r.1.1 r.1.2 evs) r.2.1
    (res.1, res.2.1, r.2.2 ++ res.2.2)

/-- The output document minus the `generated_at` timestamp and file path
(which are run metadata, not functions of the data). -/
structure RunOutput where
  events : List OutEvent
  event_count : Nat
  unique_locations : Nat
  deriving DecidableEq, Repr

/-- Body of `main` once the input file exists (build.py:196-228): read the
events, geocode the distinct locations, and assemble the payload. -/
def runPipeline (pd : Cell → PdParse) (g : GeoOracle) (ts : PyStr)
    (wb : Workbook) (cache : Cache) : RunOutput × Cache × List Ev :=
  let events := readEvents pd wb
  let outEvs := events.map fun e => OutEvent.mk e Option.none Option.none Option.none
  let unique := uniqueMap events
  let res := geocodeLoop g ts unique outEvs cache
  (⟨res.1, events.length, unique.length⟩, res.2.1, res.2.2)

/-- Embedding of `main` (build.py:191-229): `SystemExit` when the workbook
file is missing (`wb? = none`), the assembled document otherwise. -/
def mainRun (pd : Cell → PdParse) (g : GeoOracle) (ts : PyStr)
    (wb? : Option Workbook) (cache : Cache) :
    Except PyStr (RunOutput × Cache × List Ev) :=
  match wb? with
  | Option.none =>
    Except.error
      ('E':: 'x':: 'c':: 'e':: 'l':: ' ':: 'f':: 'i':: 'l':: 'e':: ' ':: 'n':: 'o':: 't':: ' ':: 'f':: 'o':: 'u':: 'n':: 'd'::[])
  | some wb => Except.ok (runPipeline pd g ts wb cache)

/-! Concrete fixtures used to witness the theorems below. -/

/-- Pandas oracle that coerces every cell to `NaT` (its behaviour on
ordinary unparseable strings). -/
def pdNaT : Cell → PdParse := fun _ => PdParse.naT

/-- Pandas oracle that raises on every cell. -/
def pdExnAll : Cell → PdParse := fun _ => PdParse.exn

/-- Geocode oracle for which every request errors. -/
def gErr : GeoOracle := fun _ => GeoOutcome.error

/-- Geocode oracle that finds every query. -/
def gHit : GeoOracle := fun _ => GeoOutcome.found 51 0 ('U':: 'K'::[])

def tsDemo : PyStr := 'T' :: 'S' :: []

/-- A sheet with a proper header row, one data row with location
`Town Hall`, and one all-blank row. -/
def sheetDemo : Sheet :=
  ⟨"North".toList,
   [[Cell.str ("Event date".toList), Cell.str ("Event location".toList)],
    [Cell.none, Cell.str ("Town Hall".toList)],
    [Cell.none, Cell.none]]⟩

/-- A second sheet whose only data row has an empty location. -/
def sheetEmptyLoc : Sheet :=
  ⟨"South".toList,
   [[Cell.str ("Event date".toList), Cell.str ("Event location".toList)],
    [Cell.none, Cell.str ("   ".toList)]]⟩

def wbDemo : Workbook := [sheetDemo, sheetEmptyLoc]

/-- The single record `read_events` produces from `wbDemo`. -/
def demoEvent : Event :=
  ⟨"North".toList, Option.none, Option.none, "Town Hall".toList, [], [], [],
   "EVT-0001".toList⟩

def locTH : PyStr := "Town Hall".toList

/-- A cache entry whose JSON object lacks the `lat` key (as a hand-edited
or variant-format cache can contain). -/
def badEntry : CacheEntry := ⟨Option.none, some (some 0), Option.none, Option.none⟩

def cacheBad : Cache := [("town hall".toList, badEntry)]

/-- A well-formed entry as the program itself writes on success. -/
def warmEntry : CacheEntry := foundEntry 51 0 ('U':: 'K'::[]) tsDemo

def cacheWarm : Cache := [("town hall".toList, warmEntry)]

/-- A cache entry with both keys present but a numeric `lat` and a null
`lon`. -/
def mixedEntry : CacheEntry := ⟨some (some 51), some Option.none, Option.none, Option.none⟩

def cacheMixed : Cache := [("town hall".toList, mixedEntry)]

/-- Geocode oracle for which the biased query fails and the raw one
succeeds. -/
def gFallback : GeoOracle :=
  fun q => if q = ukQuery locTH then GeoOutcome.error else GeoOutcome.found 51 0 []

/-- The output record of the demo run against the empty cache (failed
lookup, so null coordinates). -/
def demoOut : OutEvent :=
  ⟨demoEvent, some Option.none, some Option.none, some ("town hall".toList)⟩

def cellBadTime : Cell := Cell.str ("ab:cdef".toList)

def cell1300 : Cell := Cell.str ("13:00:00".toList)

/-! Pairedness predicates used to state the lat/lon invariant. -/

/-- Values stored under the `lat` and `lon` keys of a cache entry are both
null or both numeric (true of every entry the program itself writes). -/
def entryOk (e : CacheEntry) : Prop :=
  ∀ la lo, e.lat = some la → e.lon = some lo →
    (la = Option.none ∧ lo = Option.none) ∨ (la.isSome = true ∧ lo.isSome = true)

def cacheOk (c : Cache) : Prop := ∀ p ∈ c, entryOk p.2

/-- A resolver result pair is both-absent or both-present. -/
def pairOk (r : Option Int × Option Int) : Prop :=
  (r.1 = Option.none ∧ r.2 = Option.none) ∨ (r.1.isSome = true ∧ r.2.isSome = true)

/-- An output record never carries exactly one of `lat`/`lon`: either the
keys were never written, or both hold null, or both hold a number. -/
def evOk (e : OutEvent) : Prop :=
  (e.lat = Option.none ∧ e.lon = Option.none) ∨
  (e.lat = some Option.none ∧ e.lon = some Option.none) ∨
  (∃ a b, e.lat = some (some a) ∧ e.lon = some (some b))

/-! Lemmas about the dict model. -/

theorem dictFind_insert_self {V : Type} (m : List (PyStr × V)) (k : PyStr) (v : V) :
    dictFind (dictInsert m k v) k = some v := by
  induction m with
  | nil => simp [dictInsert, dictFind]
  | cons p rest ih =>
    by_cases h : p.1 = k
    · simp [dictInsert, dictFind, h]
    · simp only [dictInsert, dictFind, h, if_false]
      simpa [dictFind, h] using ih

theorem dictFind_insert_ne {V : Type} (m : List (PyStr × V)) (k k' : PyStr) (v : V)
    (h : k' ≠ k) : dictFind (dictInsert m k v) k' = dictFind m k' := by
  induction m with
  | nil =>
    simp only [dictInsert, dictFind]
    rw [if_neg (fun hh => h hh.symm)]
  | cons q rest ih =>
    obtain ⟨qk, qv⟩ := q
    by_cases hq : qk = k
    · subst hq
      simp only [dictInsert, if_true, dictFind]
      rw [if_neg (fun hh => h hh.symm), if_neg (fun hh => h hh.symm)]
    · simp only [dictInsert, hq, if_false, dictFind]
      by_cases hq' : qk = k'
      · simp [hq']
      · simp [hq', ih]

theorem mem_dictInsert {V : Type} {m : List (PyStr × V)} {k : PyStr} {v : V}
    {p : PyStr × V} (h : p ∈ dictInsert m k v) : p ∈ m ∨ p = (k, v) := by
  induction m with
  | nil => simpa [dictInsert] using h
  | cons q rest ih =>
    obtain ⟨qk, qv⟩ := q
    by_cases hq : qk = k
    · simp only [dictInsert, hq, if_true, List.mem_cons] at h
      rcases h with h | h
      · exact Or.inr h
      · exact Or.inl (List.mem_cons_of_mem _ h)
    · simp only [dictInsert, hq, if_false, List.mem_cons] at h
      rcases h with h | h
      · exact Or.inl (by simp [h])
      · rcases ih h with h' | h'
        · exact Or.inl (List.mem_cons_of_mem _ h')
        · exact Or.inr h'

theorem mem_keys_dictInsert {V : Type} {m : List (PyStr × V)} {k k' : PyStr} {v : V} :
    k' ∈ (dictInsert m k v).map Prod.fst ↔ k' ∈ m.map Prod.fst ∨ k' = k := by
  induction m with
  | nil => simp [dictInsert, eq_comm]
  | cons q rest ih =>
    obtain ⟨qk, qv⟩ := q
    by_cases hq : qk = k
    · subst hq
      simp only [dictInsert, if_true, List.map_cons, List.mem_cons]
      tauto
    · simp only [dictInsert, hq, if_false, List.map_cons, List.mem_cons, ih]
      tauto

theorem keys_nodup_dictInsert {V : Type} {m : List (PyStr × V)} {k : PyStr} {v : V}
    (h : (m.map Prod.fst).Nodup) : ((dictInsert m k v).map Prod.fst).Nodup := by
  induction m with
  | nil =>
    simp only [dictInsert, List.map_cons, List.map_nil]
    exact List.nodup_singleton _
  | cons q rest ih =>
    obtain ⟨qk, qv⟩ := q
    simp only [List.map_cons, List.nodup_cons] at h
    by_cases hq : qk = k
    · subst hq
      simp only [dictInsert, if_pos rfl, List.map_cons]
      exact List.nodup_cons.mpr ⟨h.1, h.2⟩
    · simp only [dictInsert, hq, if_false, List.map_cons, List.nodup_cons]
      refine ⟨fun hmem => ?_, ih h.2⟩
      rcases (mem_keys_dictInsert).mp hmem with h' | h'
      · exact h.1 h'
      · exact hq h'

/-! Lemmas about `uniqueMap`. -/

theorem uniqueMap_key_eq (evs : List Event) :
    ∀ p ∈ uniqueMap evs, keyOf p.2 = p.1 := by
  have main : ∀ (l : List Event) (m : List (PyStr × PyStr)),
      (∀ p ∈ m, keyOf p.2 = p.1) →
      ∀ p ∈ l.foldl (fun m e => dictInsert m (keyOf e.location) e.location) m, keyOf p.2 = p.1 := by
    intro l
    induction l with
    | nil => intro m hm p hp; exact hm p hp
    | cons e rest ih =>
      intro m hm p hp
      refine ih _ (fun q hq => ?_) p hp
      rcases mem_dictInsert hq with h | h
      · exact hm q h
      · subst h; rfl
  exact main evs [] (by simp)

theorem uniqueMap_keys_nodup (evs : List Event) :
    ((uniqueMap evs).map Prod.fst).Nodup := by
  have main : ∀ (l : List Event) (m : List (PyStr × PyStr)),
      (m.map Prod.fst).Nodup →
      ((l.foldl (fun m e => dictInsert m (keyOf e.location) e.location) m).map Prod.fst).Nodup := by
    intro l
    induction l with
    | nil => intro m hm; exact hm
    | cons e rest ih => intro m hm; exact ih _ (keys_nodup_dictInsert hm)
  exact main evs [] (by simp)

theorem uniqueMap_covers (evs : List Event) :
    ∀ e ∈ evs, keyOf e.location ∈ (uniqueMap evs).map Prod.fst := by
  have mono : ∀ (l : List Event) (m : List (PyStr × PyStr)) (k : PyStr),
      k ∈ m.map Prod.fst →
      k ∈ (l.foldl (fun m e => dictInsert m (keyOf e.location) e.location) m).map Prod.fst := by
    intro l
    induction l with
    | nil => intro m k hk; exact hk
    | cons e rest ih =>
      intro m k hk
      exact ih _ k (mem_keys_dictInsert.mpr (Or.inl hk))
  have main : ∀ (l : List Event) (m : List (PyStr × PyStr)) (e : Event), e ∈ l →
      keyOf e.location ∈ (l.foldl (fun m e => dictInsert m (keyOf e.location) e.location) m).map Prod.fst := by
    intro l
    induction l with
    | nil => intro m e he; cases he
    | cons e' rest ih =>
      intro m e he
      rcases List.mem_cons.mp he with rfl | he'
      · exact mono rest _ _ (mem_keys_dictInsert.mpr (Or.inr rfl))
      · exact ih _ e he'
  intro e he
  exact main evs [] e he

/-! Case analysis of the resolver. -/

theorem geoResolve_cases (g : GeoOracle) (ts loc key : PyStr) (cache : Cache) :
    (∃ la lo d, geoAttempt g (ukQuery loc) = some (la, lo, d) ∧
      geoResolve g ts loc key cache =
        ((some la, some lo), dictInsert cache key (foundEntry la lo d ts),
          [Ev.call (ukQuery loc), Ev.sleep])) ∨
    (∃ la lo d, geoAttempt g (ukQuery loc) = Option.none ∧
      geoAttempt g loc = some (la, lo, d) ∧
      geoResolve g ts loc key cache =
        ((some la, some lo), dictInsert cache key (foundEntry la lo d ts),
          [Ev.call (ukQuery loc), Ev.call loc, Ev.sleep])) ∨
    (geoAttempt g (ukQuery loc) = Option.none ∧ geoAttempt g loc = Option.none ∧
      geoResolve g ts loc key cache =
        ((Option.none, Option.none), dictInsert cache key (nullEntry ts),
          [Ev.call (ukQuery loc), Ev.call loc])) := by
  rcases h1 : geoAttempt g (ukQuery loc) with _ | ⟨la, lo, d⟩
  · rcases h2 : geoAttempt g loc with _ | ⟨la, lo, d⟩
    · exact Or.inr (Or.inr ⟨rfl, rfl, by simp [geoResolve, h1, h2]⟩)
    · exact Or.inr (Or.inl ⟨la, lo, d, rfl, rfl, by simp [geoResolve, h1, h2]⟩)
  · exact Or.inl ⟨la, lo, d, rfl, by simp [geoResolve, h1]⟩

theorem ensureGeocode_hit (g : GeoOracle) (ts loc : PyStr) (cache : Cache)
    (e : CacheEntry) (la lo : Option Int) (hk : keyOf loc ≠ [])
    (hf : dictFind cache (keyOf loc) = some e)
    (hla : e.lat = some la) (hlo : e.lon = some lo) :
    ensureGeocode g ts loc cache = ((la, lo), cache, []) := by
  simp [ensureGeocode, hk, hf, hla, hlo]

theorem ensureGeocode_cases (g : GeoOracle) (ts loc : PyStr) (cache : Cache) :
    (keyOf loc = [] ∧ ensureGeocode g ts loc cache = ((Option.none, Option.none), cache, [])) ∨
    (∃ e la lo, keyOf loc ≠ [] ∧ dictFind cache (keyOf loc) = some e ∧
      e.lat = some la ∧ e.lon = some lo ∧
      ensureGeocode g ts loc cache = ((la, lo), cache, [])) ∨
    (keyOf loc ≠ [] ∧
      (∀ e, dictFind cache (keyOf loc) = some e → e.lat = Option.none ∨ e.lon = Option.none) ∧
      ensureGeocode g ts loc cache = geoResolve g ts loc (keyOf loc) cache) := by
  by_cases hk : keyOf loc = []
  · exact Or.inl ⟨hk, by simp [ensureGeocode, hk]⟩
  · rcases hf : dictFind cache (keyOf loc) with _ | e
    · refine Or.inr (Or.inr ⟨hk, ?_, by simp [ensureGeocode, hk, hf]⟩)
      intro e he
      exact Option.noConfusion he
    · rcases hla : e.lat with _ | la
      · refine Or.inr (Or.inr ⟨hk, ?_, by simp [ensureGeocode, hk, hf, hla]⟩)
        intro e' he'
        injection he' with hh
        subst hh
        exact Or.inl hla
      · rcases hlo : e.lon with _ | lo
        · refine Or.inr (Or.inr ⟨hk, ?_, by simp [ensureGeocode, hk, hf, hla, hlo]⟩)
          intro e' he'
          injection he' with hh
          subst hh
          exact Or.inr hlo
        · exact Or.inr (Or.inl ⟨e, la, lo, hk, rfl, hla, hlo,
            ensureGeocode_hit g ts loc cache e la lo hk hf hla hlo⟩)

theorem ensureGeocode_entry (g : GeoOracle) (ts loc : PyStr) (cache : Cache)
    (hk : keyOf loc ≠ []) :
    ∃ e, dictFind ((ensureGeocode g ts loc cache).2.1) (keyOf loc) = some e ∧
      e.lat = some (ensureGeocode g ts loc cache).1.1 ∧
      e.lon = some (ensureGeocode g ts loc cache).1.2 := by
  rcases ensureGeocode_cases g ts loc cache with ⟨hk', _⟩ | ⟨e, la, lo, _, hf, hla, hlo, heq⟩ |
      ⟨_, _, heq⟩
  · exact absurd hk' hk
  · exact ⟨e, by simp [heq, hf, hla, hlo]⟩
  · rcases geoResolve_cases g ts loc (keyOf loc) cache with
      ⟨la, lo, d, _, hres⟩ | ⟨la, lo, d, _, _, hres⟩ | ⟨_, _, hres⟩
    · rw [heq, hres]
      exact ⟨foundEntry la lo d ts, dictFind_insert_self cache (keyOf loc) _, rfl, rfl⟩
    · rw [heq, hres]
      exact ⟨foundEntry la lo d ts, dictFind_insert_self cache (keyOf loc) _, rfl, rfl⟩
    · rw [heq, hres]
      exact ⟨nullEntry ts, dictFind_insert_self cache (keyOf loc) _, rfl, rfl⟩

theorem ensureGeocode_frame (g : GeoOracle) (ts loc : PyStr) (cache : Cache)
    (k : PyStr) (h : keyOf loc ≠ k) :
    dictFind ((ensureGeocode g ts loc cache).2.1) k = dictFind cache k := by
  rcases ensureGeocode_cases g ts loc cache with ⟨_, heq⟩ | ⟨e, la, lo, _, _, _, _, heq⟩ |
      ⟨_, _, heq⟩
  · rw [heq]
  · rw [heq]
  · rcases geoResolve_cases g ts loc (keyOf loc) cache with
      ⟨la, lo, d, _, hres⟩ | ⟨la, lo, d, _, _, hres⟩ | ⟨_, _, hres⟩ <;>
    · rw [heq, hres]
      exact dictFind_insert_ne _ _ _ _ (Ne.symm h)

/-! Lemmas about the geocoding loop. -/

theorem geocodeLoop_cons (g : GeoOracle) (ts pk ploc : PyStr)
    (rest : List (PyStr × PyStr)) (evs : List OutEvent) (cache : Cache) :
    geocodeLoop g ts ((pk, ploc) :: rest) evs cache =
      ((geocodeLoop g ts rest
          (assignCoords pk (ensureGeocode g ts ploc cache).1.1
            (ensureGeocode g ts ploc cache).1.2 evs)
          (ensureGeocode g ts ploc cache).2.1).1,
       (geocodeLoop g ts rest
          (assignCoords pk (ensureGeocode g ts ploc cache).1.1
            (ensureGeocode g ts ploc cache).1.2 evs)
          (ensureGeocode g ts ploc cache).2.1).2.1,
       (ensureGeocode g ts ploc cache).2.2 ++
         (geocodeLoop g ts rest
            (assignCoords pk (ensureGeocode g ts ploc cache).1.1
              (ensureGeocode g ts ploc cache).1.2 evs)
            (ensureGeocode g ts ploc cache).2.1).2.2) := rfl

theorem geocodeLoop_frame (g : GeoOracle) (ts : PyStr) (u : List (PyStr × PyStr))
    (hu : ∀ p ∈ u, keyOf p.2 = p.1) (k : PyStr) (hk : k ∉ u.map Prod.fst) :
    ∀ (evs : List OutEvent) (cache : Cache),
      dictFind ((geocodeLoop g ts u evs cache).2.1) k = dictFind cache k := by
  induction u with
  | nil => intro evs cache; rfl
  | cons p rest ih =>
    obtain ⟨pk, ploc⟩ := p
    intro evs cache
    have hploc : keyOf ploc = pk := hu (pk, ploc) (List.mem_cons_self _ _)
    have hkpk : k ≠ pk := fun h => hk (by simp [h])
    have hkrest : k ∉ rest.map Prod.fst := fun h => hk (by simp [h])
    rw [geocodeLoop_cons]
    rw [ih (fun q hq => hu q (List.mem_cons_of_mem _ hq)) hkrest]
    exact ensureGeocode_frame g ts ploc cache k (by rw [hploc]; exact fun h => hkpk h.symm)

/-- Re-running the geocoding loop on the cache the first run produced makes
no external call, changes nothing, and returns the same events, regardless
of the oracle and timestamp of the second run. -/
theorem geocodeLoop_warm (g : GeoOracle) (ts : PyStr) (g' : GeoOracle) (ts' : PyStr)
    (u : List (PyStr × PyStr)) (hu : ∀ p ∈ u, keyOf p.2 = p.1)
    (hnd : (u.map Prod.fst).Nodup) :
    ∀ (evs : List OutEvent) (cache : Cache),
      geocodeLoop g' ts' u evs (geocodeLoop g ts u evs cache).2.1 =
        ((geocodeLoop g ts u evs cache).1, (geocodeLoop g ts u evs cache).2.1, []) := by
  induction u with
  | nil => intro evs cache; rfl
  | cons p rest ih =>
    obtain ⟨pk, ploc⟩ := p
    intro evs cache
    have hploc : keyOf ploc = pk := hu (pk, ploc) (List.mem_cons_self _ _)
    have hurest : ∀ q ∈ rest, keyOf q.2 = q.1 :=
      fun q hq => hu q (List.mem_cons_of_mem _ hq)
    have hndrest : (rest.map Prod.fst).Nodup := (List.nodup_cons.mp hnd).2
    have hpkrest : pk ∉ rest.map Prod.fst := (List.nodup_cons.mp hnd).1
    by_cases hk : keyOf ploc = []
    · have hr1 : ∀ c : Cache,
          ensureGeocode g ts ploc c = ((Option.none, Option.none), c, []) :=
        fun c => by simp [ensureGeocode, hk]
      have hr2 : ∀ c : Cache,
          ensureGeocode g' ts' ploc c = ((Option.none, Option.none), c, []) :=
        fun c => by simp [ensureGeocode, hk]
      simp only [geocodeLoop_cons, hr1, hr2, List.nil_append]
      rw [ih hurest hndrest (assignCoords pk Option.none Option.none evs) cache]
    · -- the first run leaves a well-formed entry for `pk`, untouched by the rest
      obtain ⟨e, hfe, hlat, hlon⟩ := ensureGeocode_entry g ts ploc cache hk
      have hsurv : dictFind
          ((geocodeLoop g ts rest
            (assignCoords pk (ensureGeocode g ts ploc cache).1.1
              (ensureGeocode g ts ploc cache).1.2 evs)
            (ensureGeocode g ts ploc cache).2.1).2.1) (keyOf ploc) = some e := by
        rw [geocodeLoop_frame g ts rest hurest (keyOf ploc) (by rw [hploc]; exact hpkrest)]
        exact hfe
      have hit := ensureGeocode_hit g' ts' ploc _ e
        (ensureGeocode g ts ploc cache).1.1 (ensureGeocode g ts ploc cache).1.2
        hk hsurv hlat hlon
      simp only [geocodeLoop_cons, hit, List.nil_append]
      rw [ih hurest hndrest
        (assignCoords pk (ensureGeocode g ts ploc cache).1.1
          (ensureGeocode g ts ploc cache).1.2 evs)
        (ensureGeocode g ts ploc cache).2.1]

/-! Lemmas about the extractor. -/

theorem rowGet_allNone (header : List PyStr) (row : List Cell) (c : PyStr)
    (h : allNone row = true) : rowGet header row c = Cell.none := by
  unfold rowGet
  rcases hidx : header.findIdx? (fun h => decide (h = c)) with _ | i
  · rfl
  · rcases hget : row[i]? with _ | x
    · simp [List.getD, hget]
    · obtain ⟨hlt, hx⟩ := List.getElem?_eq_some.mp hget
      have hmem : x ∈ row := hx ▸ List.getElem_mem hlt
      have := (List.all_eq_true.mp h) x hmem
      have hxn : x = Cell.none := of_decide_eq_true this
      simp [List.getD, hget, hxn]

theorem sheetLoc_allNone (s : Sheet) (row : List Cell) (h : allNone row = true) :
    sheetLoc s row = [] := by
  unfold sheetLoc
  rcases colLoc s with _ | c
  · rfl
  · show safeStr (rowGet (sheetHeader s) row c) = []
    rw [rowGet_allNone _ _ _ h]
    rfl

theorem filterMap_location_split (pd : Cell → PdParse) (s : Sheet) (l : List (List Cell)) :
    (l.filterMap fun r => if sheetLoc s r = [] then Option.none else some (mkEvent pd s r)) =
      (l.filter fun r => !decide (sheetLoc s r = [])).map (mkEvent pd s) := by
  induction l with
  | nil => rfl
  | cons r rest ih =>
    by_cases h : sheetLoc s r = []
    · simp [List.filterMap_cons, List.filter_cons, h, ih]
    · simp [List.filterMap_cons, List.filter_cons, h, ih]

theorem sheetEvents_eq (pd : Cell → PdParse) (s : Sheet) :
    sheetEvents pd s =
      ((sheetBodyAll s).filter fun r => !decide (sheetLoc s r = [])).map (mkEvent pd s) := by
  by_cases hemp : s.rows.isEmpty
  · have hrows : s.rows = [] := List.isEmpty_iff.mp hemp
    simp [sheetEvents, hemp, sheetBodyAll, hrows]
  · rw [sheetEvents, if_neg hemp, sheetBody, filterMap_location_split, List.filter_filter]
    refine congrArg _ (List.filter_congr fun r _ => ?_)
    by_cases h : sheetLoc s r = []
    · simp [h]
    · have : allNone r = false := by
        rcases Bool.eq_false_or_eq_true (allNone r) with hb | hb
        · exact absurd (sheetLoc_allNone s r hb) h
        · exact hb
      simp [h, this]

theorem foldl_append_events (pd : Cell → PdParse) (wb : Workbook) :
    ∀ acc : List Event,
      wb.foldl (fun acc s => acc ++ sheetEvents pd s) acc =
        acc ++ wb.flatMap (sheetEvents pd) := by
  induction wb with
  | nil => intro acc; simp
  | cons s rest ih =>
    intro acc
    simp only [List.foldl_cons, ih, List.flatMap_cons, List.append_assoc]

theorem assignIdsFrom_location :
    ∀ (i : Nat) (evs : List Event), ∀ e ∈ assignIdsFrom i evs,
      ∃ e₀ ∈ evs, e.location = e₀.location := by
  intro i evs
  induction evs generalizing i with
  | nil => intro e he; cases he
  | cons e₀ rest ih =>
    intro e he
    rcases List.mem_cons.mp he with rfl | he'
    · exact ⟨e₀, List.mem_cons_self _ _, rfl⟩
    · rcases ih (i + 1) e he' with ⟨e₁, h₁, h₂⟩
      exact ⟨e₁, List.mem_cons_of_mem _ h₁, h₂⟩

theorem readEvents_location_nonempty (pd : Cell → PdParse) (wb : Workbook) :
    ∀ e ∈ readEvents pd wb, e.location ≠ [] := by
  intro e he
  rcases assignIdsFrom_location 1 _ e (by simpa [readEvents, assignIds] using he) with
    ⟨e₀, h₀, hloc⟩
  rw [foldl_append_events pd wb []] at h₀
  rcases List.mem_flatMap.mp (by simpa using h₀) with ⟨s, _, hs⟩
  rw [sheetEvents_eq] at hs
  rcases List.mem_map.mp hs with ⟨r, hr, rfl⟩
  have hfilter := List.of_mem_filter hr
  have : ¬ sheetLoc s r = [] := by simpa using hfilter
  rw [hloc]
  exact this

/-! Lowercasing commutes with trimming, so the program's
`location.lower().strip()` equals the spec's `lowercase(trim(location))`. -/

theorem charToNat_ofNat (n : Nat) (h : n.isValidChar) : (Char.ofNat n).toNat = n := by
  unfold Char.ofNat
  rw [dif_pos h]
  simp [Char.toNat, Char.ofNatAux, UInt32.toNat, BitVec.toNat_ofNatLt]

theorem isWhitespace_toLower (c : Char) :
    (Char.toLower c).isWhitespace = c.isWhitespace := by
  unfold Char.toLower
  by_cases h : c.toNat ≥ 65 ∧ c.toNat ≤ 90
  · rw [if_pos h]
    have hv : (c.toNat + 32).isValidChar := by
      left
      omega
    have ht : (Char.ofNat (c.toNat + 32)).toNat = c.toNat + 32 := charToNat_ofNat _ hv
    have e1 : Char.toNat ' ' = 32 := by decide
    have e2 : Char.toNat '\t' = 9 := by decide
    have e3 : Char.toNat '\x0d' = 13 := by decide
    have e4 : Char.toNat '\n' = 10 := by decide
    have h1 : (Char.ofNat (c.toNat + 32)).isWhitespace = false := by
      unfold Char.isWhitespace
      simp only [Bool.or_eq_false_iff, decide_eq_false_iff_not]
      refine ⟨⟨⟨?_, ?_⟩, ?_⟩, ?_⟩ <;>
        · intro hd
          rw [hd] at ht
          simp only [e1, e2, e3, e4] at ht
          omega
    have h2 : c.isWhitespace = false := by
      unfold Char.isWhitespace
      simp only [Bool.or_eq_false_iff, decide_eq_false_iff_not]
      refine ⟨⟨⟨?_, ?_⟩, ?_⟩, ?_⟩ <;>
        · intro hd
          rw [hd] at h
          exact absurd h (by decide)
    rw [h1, h2]
  · rw [if_neg h]

theorem dropWhile_whitespace_map_toLower (l : List Char) :
    (l.map Char.toLower).dropWhile Char.isWhitespace =
      (l.dropWhile Char.isWhitespace).map Char.toLower := by
  rw [List.dropWhile_map]
  have hp : (Char.isWhitespace ∘ Char.toLower) = Char.isWhitespace :=
    funext fun c => isWhitespace_toLower c
  rw [hp]

theorem pyStrip_pyLower (s : PyStr) : pyStrip (pyLower s) = pyLower (pyStrip s) := by
  unfold pyStrip pyLower
  rw [dropWhile_whitespace_map_toLower, ← List.map_reverse,
    dropWhile_whitespace_map_toLower, ← List.map_reverse]

/-- The cache/grouping key is the claim's `lowercase(trim(location))`. -/
theorem keyOf_eq (l : PyStr) : keyOf l = pyLower (pyStrip l) := pyStrip_pyLower l

/-! After the loop, every event carries its own normalized location as its
`location_key`. -/

theorem geocodeLoop_assigns (g : GeoOracle) (ts : PyStr) :
    ∀ (u : List (PyStr × PyStr)) (evs : List OutEvent) (cache : Cache),
      (∀ e ∈ evs, keyOf e.base.location ∈ u.map Prod.fst ∨
        e.location_key = some (keyOf e.base.location)) →
      ∀ e ∈ (geocodeLoop g ts u evs cache).1,
        e.location_key = some (keyOf e.base.location) := by
  intro u
  induction u with
  | nil =>
    intro evs cache h e he
    rcases h e he with h' | h'
    · simp at h'
    · exact h'
  | cons p rest ih =>
    obtain ⟨pk, ploc⟩ := p
    intro evs cache h e he
    simp only [geocodeLoop_cons] at he
    refine ih _ _ (fun e' he' => ?_) e he
    rcases List.mem_map.mp he' with ⟨e₀, he₀, rfl⟩
    by_cases hc : keyOf e₀.base.location = pk
    · rw [if_pos hc]
      exact Or.inr (congrArg some hc.symm)
    · rw [if_neg hc]
      rcases h e₀ he₀ with h' | h'
      · rw [List.map_cons] at h'
        rcases List.mem_cons.mp h' with h'' | h''
        · exact absurd h'' hc
        · exact Or.inl h''
      · exact Or.inr h'

/-- Shapes the external-action trace of one `ensure_geocode` call can take:
nothing (empty key or cache hit), a successful biased call followed by the
sleep, a failed biased call then a successful raw call then the sleep, or
two failed calls with no sleep at all. -/
theorem ensureGeocode_trace_cases (g : GeoOracle) (ts loc : PyStr) (cache : Cache) :
    (ensureGeocode g ts loc cache).2.2 = [] ∨
    (ensureGeocode g ts loc cache).2.2 = [Ev.call (ukQuery loc), Ev.sleep] ∨
    ((ensureGeocode g ts loc cache).2.2 = [Ev.call (ukQuery loc), Ev.call loc, Ev.sleep] ∧
      geoAttempt g (ukQuery loc) = Option.none) ∨
    ((ensureGeocode g ts loc cache).2.2 = [Ev.call (ukQuery loc), Ev.call loc] ∧
      geoAttempt g (ukQuery loc) = Option.none ∧ geoAttempt g loc = Option.none) := by
  rcases ensureGeocode_cases g ts loc cache with ⟨_, heq⟩ | ⟨e, la, lo, _, _, _, _, heq⟩ |
      ⟨_, _, heq⟩
  · exact Or.inl (by rw [heq])
  · exact Or.inl (by rw [heq])
  · rcases geoResolve_cases g ts loc (keyOf loc) cache with
      ⟨la, lo, d, _, hres⟩ | ⟨la, lo, d, h1, _, hres⟩ | ⟨h1, h2, hres⟩
    · exact Or.inr (Or.inl (by rw [heq, hres]))
    · exact Or.inr (Or.inr (Or.inl ⟨by rw [heq, hres], h1⟩))
    · exact Or.inr (Or.inr (Or.inr ⟨by rw [heq, hres], h1, h2⟩))

/-! Claim theorems. -/

/-- claim C1: for every sheet a record is emitted for a row iff the row's
location field is non-empty after normalization (stringify then trim): the
emitted list is exactly the map over the location-non-empty rows, each
record's `location` is its row's normalized location, all-blank rows
normalize to the empty location (so their silent skip agrees with the
location rule), and every emitted record has a non-empty location. -/
theorem claim_C1 (pd : Cell → PdParse) :
    (∀ s : Sheet, sheetEvents pd s =
        ((sheetBodyAll s).filter fun r => !decide (sheetLoc s r = [])).map (mkEvent pd s)) ∧
    (∀ (s : Sheet) (r : List Cell), (mkEvent pd s r).location = sheetLoc s r) ∧
    (∀ (s : Sheet) (r : List Cell), allNone r = true → sheetLoc s r = []) ∧
    (∀ wb : Workbook, ∀ e ∈ readEvents pd wb, e.location ≠ []) :=
  ⟨sheetEvents_eq pd, fun _ _ => rfl, sheetLoc_allNone, readEvents_location_nonempty pd⟩

/-- witness for C1 on a concrete workbook: the `Town Hall` record is
emitted and its location is non-empty; the all-blank row normalizes to an
empty location. -/
theorem claim_C1_witness :
    (demoEvent ∈ readEvents pdNaT wbDemo ∧ demoEvent.location ≠ []) ∧
    (allNone [Cell.none, Cell.none] = true ∧ sheetLoc sheetDemo [Cell.none, Cell.none] = []) :=
  ⟨⟨by decide, (claim_C1 pdNaT).2.2.2 wbDemo demoEvent (by decide)⟩,
   ⟨by decide, (claim_C1 pdNaT).2.2.1 sheetDemo [Cell.none, Cell.none] (by decide)⟩⟩

/-- claim C5: rerunning the pipeline on the same workbook with the warm
cache of the first run issues zero network calls (the external trace is
empty), produces the identical output document (events list and counts),
and leaves the cache unchanged — for any second-run oracle and timestamp. -/
theorem claim_C5 (pd : Cell → PdParse) (g : GeoOracle) (ts : PyStr)
    (g' : GeoOracle) (ts' : PyStr) (wb : Workbook) (cache : Cache) :
    (runPipeline pd g' ts' wb (runPipeline pd g ts wb cache).2.1).2.2 = [] ∧
    (runPipeline pd g' ts' wb (runPipeline pd g ts wb cache).2.1).1 =
      (runPipeline pd g ts wb cache).1 ∧
    (runPipeline pd g' ts' wb (runPipeline pd g ts wb cache).2.1).2.1 =
      (runPipeline pd g ts wb cache).2.1 := by
  have hw := geocodeLoop_warm g ts g' ts' (uniqueMap (readEvents pd wb))
    (uniqueMap_key_eq _) (uniqueMap_keys_nodup _)
    ((readEvents pd wb).map fun e => OutEvent.mk e Option.none Option.none Option.none) cache
  refine ⟨?_, ?_, ?_⟩ <;>
  · simp only [runPipeline, hw]

/-- claim C2 (as stated, refuted): a cache entry can exist for the key and
the resolver still issues network calls — namely when the stored JSON
object lacks the `lat` (or `lon`) key, as `cache[key]` must pass the
`"lat" in … and "lon" in …` test to count as a hit. -/
theorem claim_C2_counterexample :
    (dictFind cacheBad (keyOf locTH)).isSome = true ∧
    (ensureGeocode gErr tsDemo locTH cacheBad).2.2 =
      [Ev.call (ukQuery locTH), Ev.call locTH] := by decide

/-- claim C2 (amended): a cache entry that carries both a `lat` and a `lon`
key suppresses every network call for its key; for any other state of the
cache at the key there are at most two calls per resolution — the biased
`"<location>, United Kingdom"` query first, and the raw query only when the
biased one yields no result. -/
theorem claim_C2 (g : GeoOracle) (ts loc : PyStr) (cache : Cache) :
    (∀ e la lo, dictFind cache (keyOf loc) = some e → e.lat = some la → e.lon = some lo →
      (ensureGeocode g ts loc cache).2.2 = []) ∧
    ((ensureGeocode g ts loc cache).2.2.filter Ev.isCall).length ≤ 2 ∧
    ((ensureGeocode g ts loc cache).2.2.filter Ev.isCall = [] ∨
     (ensureGeocode g ts loc cache).2.2.filter Ev.isCall = [Ev.call (ukQuery loc)] ∨
     ((ensureGeocode g ts loc cache).2.2.filter Ev.isCall = [Ev.call (ukQuery loc), Ev.call loc] ∧
       geoAttempt g (ukQuery loc) = Option.none)) := by
  refine ⟨?_, ?_, ?_⟩
  · intro e la lo hf hla hlo
    by_cases hk : keyOf loc = []
    · simp [ensureGeocode, hk]
    · rw [ensureGeocode_hit g ts loc cache e la lo hk hf hla hlo]
  · rcases ensureGeocode_trace_cases g ts loc cache with h | h | ⟨h, _⟩ | ⟨h, _⟩ <;>
      simp [h, Ev.isCall]
  · rcases ensureGeocode_trace_cases g ts loc cache with h | h | ⟨h, h1⟩ | ⟨h, h1, h2⟩
    · exact Or.inl (by simp [h])
    · exact Or.inr (Or.inl (by simp [h, Ev.isCall]))
    · exact Or.inr (Or.inr ⟨by simp [h, Ev.isCall], h1⟩)
    · exact Or.inr (Or.inr ⟨by simp [h, Ev.isCall], h1⟩)

/-- witness for C2 at a concrete input: a warm well-formed entry yields an
empty trace. -/
theorem claim_C2_witness :
    (dictFind cacheWarm (keyOf locTH) = some warmEntry ∧
      warmEntry.lat = some (some 51) ∧ warmEntry.lon = some (some 0)) ∧
    (ensureGeocode gHit tsDemo locTH cacheWarm).2.2 = [] :=
  ⟨⟨by decide, by decide, by decide⟩,
    (claim_C2 gHit tsDemo locTH cacheWarm).1 warmEntry (some 51) (some 0)
      (by decide) (by decide) (by decide)⟩

/-- claim C3 (refuted, code bug): when the biased query fails, the raw
fallback call is issued immediately after it with no intervening sleep, and
when both calls fail no sleep happens at all; the `time.sleep(1.1)` runs
only after a successful resolution.  Both run traces below are computed
from the code on a never-cached location. -/
theorem claim_C3 :
    (ensureGeocode gErr tsDemo locTH []).2.2 =
      [Ev.call (ukQuery locTH), Ev.call locTH] ∧
    ((ensureGeocode gErr tsDemo locTH []).2.2.filter (fun e => !(Ev.isCall e))) = [] ∧
    (ensureGeocode gFallback tsDemo locTH []).2.2 =
      [Ev.call (ukQuery locTH), Ev.call locTH, Ev.sleep] := by decide

/-- claim C4: when both the biased and the raw query yield no result
(error or empty alike), the call returns normally with null coordinates, a
null cache entry is written under the key, every record sharing the key
receives null `lat`/`lon` in the write-back, and any later resolution of
the same location performs no network call. -/
theorem claim_C4 (g : GeoOracle) (ts loc : PyStr) (cache : Cache)
    (hk : keyOf loc ≠ [])
    (hmiss : ∀ e la lo,
      ¬(dictFind cache (keyOf loc) = some e ∧ e.lat = some la ∧ e.lon = some lo))
    (h1 : geoAttempt g (ukQuery loc) = Option.none)
    (h2 : geoAttempt g loc = Option.none) :
    ensureGeocode g ts loc cache =
      ((Option.none, Option.none), dictInsert cache (keyOf loc) (nullEntry ts),
        [Ev.call (ukQuery loc), Ev.call loc]) ∧
    dictFind (dictInsert cache (keyOf loc) (nullEntry ts)) (keyOf loc) = some (nullEntry ts) ∧
    (∀ (g' : GeoOracle) (ts' : PyStr),
      ensureGeocode g' ts' loc (dictInsert cache (keyOf loc) (nullEntry ts)) =
        ((Option.none, Option.none), dictInsert cache (keyOf loc) (nullEntry ts), [])) ∧
    (∀ (evs : List OutEvent), ∀ e ∈ assignCoords (keyOf loc) Option.none Option.none evs,
      keyOf e.base.location = keyOf loc →
        e.lat = some Option.none ∧ e.lon = some Option.none) := by
  have hres : ensureGeocode g ts loc cache =
      ((Option.none, Option.none), dictInsert cache (keyOf loc) (nullEntry ts),
        [Ev.call (ukQuery loc), Ev.call loc]) := by
    rcases ensureGeocode_cases g ts loc cache with ⟨hk', _⟩ | ⟨e, la, lo, _, hf, hla, hlo, _⟩ |
        ⟨_, _, heq⟩
    · exact absurd hk' hk
    · exact absurd ⟨hf, hla, hlo⟩ (hmiss e la lo)
    · rw [heq]
      simp [geoResolve, h1, h2]
  refine ⟨hres, dictFind_insert_self cache (keyOf loc) _, ?_, ?_⟩
  · intro g' ts'
    exact ensureGeocode_hit g' ts' loc _ (nullEntry ts) Option.none Option.none hk
      (dictFind_insert_self cache (keyOf loc) _) rfl rfl
  · intro evs e he hkey
    rcases List.mem_map.mp he with ⟨e₀, _, rfl⟩
    by_cases hc : keyOf e₀.base.location = keyOf loc
    · rw [if_pos hc]
      exact ⟨rfl, rfl⟩
    · rw [if_neg hc] at hkey ⊢
      exact absurd hkey hc

/-- witness for C4 on a concrete input: the failed double lookup on
`Town Hall` against the empty cache. -/
theorem claim_C4_witness :
    keyOf locTH ≠ [] ∧
    ensureGeocode gErr tsDemo locTH [] =
      ((Option.none, Option.none), dictInsert [] (keyOf locTH) (nullEntry tsDemo),
        [Ev.call (ukQuery locTH), Ev.call locTH]) :=
  ⟨by decide,
    (claim_C4 gErr tsDemo locTH [] (by decide)
      (fun e la lo h => Option.noConfusion h.1) (by decide) (by decide)).1⟩

/-- claim C10: an existing cache entry that lacks the `lat` key or the
`lon` key does not count as a hit: the resolver issues fresh lookups
(starting with the biased call) and overwrites the entry with a fresh one
carrying both keys. -/
theorem claim_C10 (g : GeoOracle) (ts loc : PyStr) (cache : Cache) (e : CacheEntry)
    (hk : keyOf loc ≠ []) (hf : dictFind cache (keyOf loc) = some e)
    (hbad : e.lat = Option.none ∨ e.lon = Option.none) :
    ensureGeocode g ts loc cache = geoResolve g ts loc (keyOf loc) cache ∧
    (ensureGeocode g ts loc cache).2.2.head? = some (Ev.call (ukQuery loc)) ∧
    (∃ e', dictFind ((ensureGeocode g ts loc cache).2.1) (keyOf loc) = some e' ∧
      (∃ la, e'.lat = some la) ∧ (∃ lo, e'.lon = some lo)) := by
  have hres : ensureGeocode g ts loc cache = geoResolve g ts loc (keyOf loc) cache := by
    rcases ensureGeocode_cases g ts loc cache with ⟨hk', _⟩ |
        ⟨e', la, lo, _, hf', hla, hlo, _⟩ | ⟨_, _, heq⟩
    · exact absurd hk' hk
    · rw [hf] at hf'
      injection hf' with hh
      subst hh
      rcases hbad with hb | hb
      · rw [hb] at hla
        exact Option.noConfusion hla
      · rw [hb] at hlo
        exact Option.noConfusion hlo
    · exact heq
  refine ⟨hres, ?_, ?_⟩
  · rcases ensureGeocode_trace_cases g ts loc cache with h | h | ⟨h, _⟩ | ⟨h, _⟩ <;>
      rw [h]
    · exfalso
      rcases geoResolve_cases g ts loc (keyOf loc) cache with
        ⟨la, lo, d, _, hgr⟩ | ⟨la, lo, d, _, _, hgr⟩ | ⟨_, _, hgr⟩ <;>
        · rw [hres, hgr] at h
          exact List.noConfusion h
    all_goals rfl
  · obtain ⟨e', h1, h2, h3⟩ := ensureGeocode_entry g ts loc cache hk
    exact ⟨e', h1, ⟨_, h2⟩, ⟨_, h3⟩⟩

/-- witness for C10 on a concrete input: the `lat`-less entry for
`town hall` is treated as a miss and overwritten by a successful lookup. -/
theorem claim_C10_witness :
    (dictFind cacheBad (keyOf locTH) = some badEntry ∧ badEntry.lat = Option.none) ∧
    (ensureGeocode gHit tsDemo locTH cacheBad).2.2.head? = some (Ev.call (ukQuery locTH)) :=
  ⟨⟨by decide, by decide⟩,
    (claim_C10 gHit tsDemo locTH cacheBad badEntry (by decide) (by decide)
      (Or.inl (by decide))).2.1⟩

/-- claim C6 (as stated, refuted): when the structured parse fails by
coercing to `NaT` — pandas' failure mode on an ordinary unparseable string
such as `"ab:cdef"` — the normalizer returns absent, not the first five
characters, because the `s[:5]` fallback sits inside the `except` handler
and only runs when the parse raises. -/
theorem claim_C6_counterexample :
    5 ≤ (safeStr cellBadTime).length ∧ (safeStr cellBadTime).get? 2 = some ':' ∧
    parseTime pdNaT cellBadTime = Option.none ∧
    parseTime pdNaT cellBadTime ≠ some ((safeStr cellBadTime).take 5) := by decide

/-- claim C6 (amended): the first-five-characters fallback fires exactly
when the structured parse raises (then, for a normalized text of length at
least five whose third character is `:`, the result is the first five
characters); a parse that coerces to `NaT` yields absent instead; the text
`"13:00:00"` normalizes to `"13:00"` whenever the parse either succeeds
with 13:00 or raises; and time normalization always returns a value. -/
theorem claim_C6 (pd : Cell → PdParse) (x : Cell) :
    (x ≠ Cell.none → (∀ h m, x ≠ Cell.time h m) → pd x = PdParse.exn →
      5 ≤ (safeStr x).length → (safeStr x).get? 2 = some ':' →
      parseTime pd x = some ((safeStr x).take 5)) ∧
    (x ≠ Cell.none → (∀ h m, x ≠ Cell.time h m) → pd x = PdParse.naT →
      parseTime pd x = Option.none) ∧
    ((pd cell1300 = PdParse.exn ∨
        (∃ dt, pd cell1300 = PdParse.ok dt ∧ dt.hour = 13 ∧ dt.minute = 0)) →
      parseTime pd cell1300 = some ("13:00".toList)) ∧
    (parseTime pd x = Option.none ∨ ∃ r, parseTime pd x = some r) := by
  have hexnGen : ∀ y : Cell, y ≠ Cell.none → (∀ h m, y ≠ Cell.time h m) →
      pd y = PdParse.exn → 5 ≤ (safeStr y).length → (safeStr y).get? 2 = some ':' →
      parseTime pd y = some ((safeStr y).take 5) := by
    intro y hnone htime hexn h5 h2
    rw [List.get?_eq_getElem?] at h2
    cases y with
    | none => exact absurd rfl hnone
    | time h m => exact absurd rfl (htime h m)
    | str s => simp [parseTime, hexn, h5, h2]
    | date y m d => simp [parseTime, hexn, h5, h2]
    | num n => simp [parseTime, hexn, h5, h2]
  refine ⟨hexnGen x, ?_, ?_, ?_⟩
  · intro hnone htime hnat
    cases x with
    | none => exact absurd rfl hnone
    | time h m => exact absurd rfl (htime h m)
    | str s => simp [parseTime, hnat]
    | date y m d => simp [parseTime, hnat]
    | num n => simp [parseTime, hnat]
  · rintro (hexn | ⟨dt, hok, hh, hm⟩)
    · have h := hexnGen cell1300 (by decide) (fun h m h' => Cell.noConfusion h') hexn
        (by decide) (by decide)
      rw [h]
      decide
    · have hok' : pd (Cell.str ('1':: '3':: ':':: '0':: '0':: ':':: '0':: '0'::[])) =
          PdParse.ok dt := hok
      have h : parseTime pd (Cell.str ('1':: '3':: ':':: '0':: '0':: ':':: '0':: '0'::[])) =
          some (formatHM dt.hour dt.minute) := by
        simp [parseTime, hok']
      rw [hh, hm] at h
      rw [show parseTime pd cell1300 = some (formatHM 13 0) from h]
      decide
  · rcases h : parseTime pd x with _ | r
    · exact Or.inl rfl
    · exact Or.inr ⟨r, rfl⟩

/-- witness for C6 at a concrete input: a raising parse on `"13:00:00"`
returns `"13:00"` through the fallback. -/
theorem claim_C6_witness :
    pdExnAll cell1300 = PdParse.exn ∧
    parseTime pdExnAll cell1300 = some ("13:00".toList) :=
  ⟨rfl, (claim_C6 pdExnAll cell1300).2.2.1 (Or.inl rfl)⟩

/-- claim C7: every output record's `location_key` equals
`lowercase(trim(location))` of its own location — a pure function of the
location, so equal locations give equal keys — the program's
`lower().strip()` composition equals the claim's `lowercase(trim(·))`, and
every grouping pair used for cache lookup carries the key of its
representative location. -/
theorem claim_C7 (pd : Cell → PdParse) (g : GeoOracle) (ts : PyStr)
    (wb : Workbook) (cache : Cache) :
    (∀ l : PyStr, keyOf l = pyLower (pyStrip l)) ∧
    (∀ e ∈ (runPipeline pd g ts wb cache).1.events,
      e.location_key = some (pyLower (pyStrip e.base.location))) ∧
    (∀ e1 e2, e1 ∈ (runPipeline pd g ts wb cache).1.events →
      e2 ∈ (runPipeline pd g ts wb cache).1.events →
      e1.base.location = e2.base.location → e1.location_key = e2.location_key) ∧
    (∀ p ∈ uniqueMap (readEvents pd wb), keyOf p.2 = p.1) := by
  have hassigned : ∀ e ∈ (runPipeline pd g ts wb cache).1.events,
      e.location_key = some (keyOf e.base.location) := by
    intro e he
    simp only [runPipeline] at he
    refine geocodeLoop_assigns g ts (uniqueMap (readEvents pd wb)) _ cache
      (fun e' he' => ?_) e he
    rcases List.mem_map.mp he' with ⟨e₀, he₀, rfl⟩
    exact Or.inl (uniqueMap_covers (readEvents pd wb) e₀ he₀)
  refine ⟨keyOf_eq, ?_, ?_, uniqueMap_key_eq _⟩
  · intro e he
    rw [hassigned e he, keyOf_eq]
  · intro e1 e2 h1 h2 hl
    rw [hassigned e1 h1, hassigned e2 h2, hl]

/-- witness for C7 on the demo run: the emitted record's key is the
lower-cased trimmed location. -/
theorem claim_C7_witness :
    demoOut ∈ (runPipeline pdNaT gErr tsDemo wbDemo []).1.events ∧
    demoOut.location_key = some (pyLower (pyStrip demoOut.base.location)) :=
  ⟨by decide,
    (claim_C7 pdNaT gErr tsDemo wbDemo []).2.1 demoOut (by decide)⟩

/-! Preservation of the lat/lon pairedness invariant. -/

theorem dictFind_mem {V : Type} {c : List (PyStr × V)} {k : PyStr} {v : V}
    (h : dictFind c k = some v) : (k, v) ∈ c := by
  induction c with
  | nil => cases h
  | cons p rest ih =>
    obtain ⟨pk, pv⟩ := p
    by_cases hp : pk = k
    · subst hp
      rw [dictFind, if_pos rfl] at h
      injection h with hh
      subst hh
      exact List.mem_cons_self _ _
    · rw [dictFind, if_neg hp] at h
      exact List.mem_cons_of_mem _ (ih h)

theorem entryOk_foundEntry (la lo : Int) (d ts : PyStr) : entryOk (foundEntry la lo d ts) := by
  intro la' lo' h1 h2
  injection h1 with h1
  injection h2 with h2
  subst h1
  subst h2
  exact Or.inr ⟨rfl, rfl⟩

theorem entryOk_nullEntry (ts : PyStr) : entryOk (nullEntry ts) := by
  intro la' lo' h1 h2
  injection h1 with h1
  injection h2 with h2
  subst h1
  subst h2
  exact Or.inl ⟨rfl, rfl⟩

theorem cacheOk_insert {c : Cache} {k : PyStr} {v : CacheEntry}
    (hc : cacheOk c) (hv : entryOk v) : cacheOk (dictInsert c k v) := by
  intro p hp
  rcases mem_dictInsert hp with h | h
  · exact hc p h
  · rw [h]
    exact hv

theorem geoResolve_pairOk (g : GeoOracle) (ts loc key : PyStr) (cache : Cache)
    (hc : cacheOk cache) :
    pairOk (geoResolve g ts loc key cache).1 ∧ cacheOk ((geoResolve g ts loc key cache).2.1) := by
  rcases geoResolve_cases g ts loc key cache with
    ⟨la, lo, d, _, hres⟩ | ⟨la, lo, d, _, _, hres⟩ | ⟨_, _, hres⟩
  · rw [hres]
    exact ⟨Or.inr ⟨rfl, rfl⟩, cacheOk_insert hc (entryOk_foundEntry la lo d ts)⟩
  · rw [hres]
    exact ⟨Or.inr ⟨rfl, rfl⟩, cacheOk_insert hc (entryOk_foundEntry la lo d ts)⟩
  · rw [hres]
    exact ⟨Or.inl ⟨rfl, rfl⟩, cacheOk_insert hc (entryOk_nullEntry ts)⟩

theorem ensureGeocode_pairOk (g : GeoOracle) (ts loc : PyStr) (cache : Cache)
    (hc : cacheOk cache) :
    pairOk (ensureGeocode g ts loc cache).1 ∧ cacheOk ((ensureGeocode g ts loc cache).2.1) := by
  rcases ensureGeocode_cases g ts loc cache with ⟨_, heq⟩ | ⟨e, la, lo, _, hf, hla, hlo, heq⟩ |
      ⟨_, _, heq⟩
  · rw [heq]
    exact ⟨Or.inl ⟨rfl, rfl⟩, hc⟩
  · rw [heq]
    exact ⟨hc _ (dictFind_mem hf) la lo hla hlo, hc⟩
  · rw [heq]
    exact geoResolve_pairOk g ts loc (keyOf loc) cache hc

theorem assignCoords_evOk (k : PyStr) (la lo : Option Int) (evs : List OutEvent)
    (hp : pairOk (la, lo)) (h : ∀ e ∈ evs, evOk e) :
    ∀ e ∈ assignCoords k la lo evs, evOk e := by
  intro e he
  rcases List.mem_map.mp he with ⟨e₀, he₀, rfl⟩
  by_cases hc : keyOf e₀.base.location = k
  · rw [if_pos hc]
    rcases hp with ⟨h1, h2⟩ | ⟨h1, h2⟩
    · have h1' : la = Option.none := h1
      have h2' : lo = Option.none := h2
      refine Or.inr (Or.inl ⟨?_, ?_⟩)
      · show some la = some Option.none
        rw [h1']
      · show some lo = some Option.none
        rw [h2']
    · obtain ⟨a, ha⟩ := Option.isSome_iff_exists.mp (show la.isSome = true from h1)
      obtain ⟨b, hb⟩ := Option.isSome_iff_exists.mp (show lo.isSome = true from h2)
      refine Or.inr (Or.inr ⟨a, b, ?_, ?_⟩)
      · show some la = some (some a)
        rw [ha]
      · show some lo = some (some b)
        rw [hb]
  · rw [if_neg hc]
    exact h e₀ he₀

theorem geocodeLoop_evOk (g : GeoOracle) (ts : PyStr) :
    ∀ (u : List (PyStr × PyStr)) (evs : List OutEvent) (cache : Cache),
      cacheOk cache → (∀ e ∈ evs, evOk e) →
      (∀ e ∈ (geocodeLoop g ts u evs cache).1, evOk e) ∧
        cacheOk ((geocodeLoop g ts u evs cache).2.1) := by
  intro u
  induction u with
  | nil => intro evs cache hc he; exact ⟨he, hc⟩
  | cons p rest ih =>
    obtain ⟨pk, ploc⟩ := p
    intro evs cache hc he
    obtain ⟨hp, hc'⟩ := ensureGeocode_pairOk g ts ploc cache hc
    have he' := assignCoords_evOk pk (ensureGeocode g ts ploc cache).1.1
      (ensureGeocode g ts ploc cache).1.2 evs hp he
    simp only [geocodeLoop_cons]
    exact ih _ _ hc' he'

/-- claim C8 (amended): provided every cache entry carrying both keys holds
values that are both null or both numeric (true of every entry the program
writes, and vacuously of an empty cache), no emitted record mixes a present
`lat` with an absent `lon` or vice versa, and the saved cache satisfies the
same pairedness again. -/
theorem claim_C8 (pd : Cell → PdParse) (g : GeoOracle) (ts : PyStr)
    (wb : Workbook) (cache : Cache) (hcache : cacheOk cache) :
    (∀ e ∈ (runPipeline pd g ts wb cache).1.events, evOk e) ∧
    cacheOk ((runPipeline pd g ts wb cache).2.1) := by
  have hinit : ∀ e ∈ (readEvents pd wb).map
      (fun e => OutEvent.mk e Option.none Option.none Option.none), evOk e := by
    intro e he
    rcases List.mem_map.mp he with ⟨e₀, _, rfl⟩
    exact Or.inl ⟨rfl, rfl⟩
  have h := geocodeLoop_evOk g ts (uniqueMap (readEvents pd wb)) _ cache hcache hinit
  simp only [runPipeline]
  exact h

/-- claim C8 (as stated, refuted): a hand-crafted cache entry holding a
numeric `lat` and a null `lon` passes the two-key hit test and is copied
verbatim onto the record, which then has exactly one of the pair. -/
theorem claim_C8_counterexample :
    (runPipeline pdNaT gErr tsDemo wbDemo cacheMixed).1.events =
      [OutEvent.mk demoEvent (some (some 51)) (some Option.none)
        (some ("town hall".toList))] ∧
    ¬ evOk (OutEvent.mk demoEvent (some (some 51)) (some Option.none)
        (some ("town hall".toList))) := by
  constructor
  · decide
  · rintro (⟨h1, _⟩ | ⟨h1, _⟩ | ⟨a, b, _, h2⟩)
    · exact Option.noConfusion h1
    · injection h1 with h1
      exact Option.noConfusion h1
    · injection h2 with h2
      exact Option.noConfusion h2

/-- witness for C8 on the demo run from the empty cache. -/
theorem claim_C8_witness :
    cacheOk ([] : Cache) ∧ evOk demoOut :=
  ⟨fun p hp => absurd hp (List.not_mem_nil p),
    (claim_C8 pdNaT gErr tsDemo wbDemo []
      (fun p hp => absurd hp (List.not_mem_nil p))).1 demoOut (by decide)⟩

/-- claim C9: the run fails (and writes nothing) exactly when the workbook
file is missing; on any present workbook the pipeline always returns a
document, whatever the parse and geocode oracles do — per-row and
per-location failures only degrade fields. -/
theorem claim_C9 (pd : Cell → PdParse) (g : GeoOracle) (ts : PyStr)
    (cache : Cache) (wb? : Option Workbook) :
    ((∃ msg, mainRun pd g ts wb? cache = Except.error msg) ↔ wb? = Option.none) ∧
    (∀ wb, wb? = some wb →
      mainRun pd g ts wb? cache = Except.ok (runPipeline pd g ts wb cache)) := by
  cases wb? with
  | none =>
    refine ⟨⟨fun _ => rfl, fun _ => ⟨_, rfl⟩⟩, fun wb h => Option.noConfusion h⟩
  | some wb =>
    refine ⟨⟨fun ⟨msg, h⟩ => Except.noConfusion h, fun h => Option.noConfusion h⟩, ?_⟩
    intro wb' h
    injection h with hh
    subst hh
    rfl

/-- witness for C9 at concrete inputs: a present workbook returns the
document, a missing one errors. -/
theorem claim_C9_witness :
    mainRun pdNaT gErr tsDemo (some wbDemo) [] =
      Except.ok (runPipeline pdNaT gErr tsDemo wbDemo []) ∧
    (∃ msg, mainRun pdNaT gErr tsDemo Option.none [] = Except.error msg) :=
  ⟨(claim_C9 pdNaT gErr tsDemo [] (some wbDemo)).2 wbDemo rfl,
   (claim_C9 pdNaT gErr tsDemo [] Option.none).1.mpr rfl⟩

end BallotEvents
